import Mathlib

/-!
Shallow embedding of `threeML/utils/interval.py` (classes `Interval` and
`IntervalSet`).  Python floats are modelled as rationals; exceptions are
modelled with `Except` over an explicit error type.  Each definition mirrors
the corresponding Python method line by line; in-place mutation of a caller
argument (`from_list_of_edges` sorting its `edges` argument) is modelled by
returning the post-call state of that argument alongside the result.
-/

namespace ThreeML

/-- Error values raised by the Python code.  `invalidInterval` is the
`RuntimeError` of `Interval.__init__`; `doNotOverlap` is
`IntervalsDoNotOverlap`; `notContiguous` is `IntervalsNotContiguous`;
`typeError` is the `TypeError` produced by `itemgetter`/iteration when
`edges` is taken on a set with fewer than two intervals; `parseError` is the
`AttributeError` raised in `_parse_interval` when `re.match` returns `None`
(the spec calls it `ParseError`); `valueError` is the `ValueError` raised by
`float()` on a capture such as "-+5"; `attributeError` is the
`AttributeError` raised in `merge_intersecting_intervals` when
`sorted_intervals.pop(0)` is called on the numpy ndarray returned by
`sort()`. -/
inductive IntervalError where
  | invalidInterval
  | doNotOverlap
  | notContiguous
  | typeError
  | parseError
  | valueError
  | attributeError
  deriving DecidableEq

instance {ε α : Type} [DecidableEq ε] [DecidableEq α] : DecidableEq (Except ε α) :=
  fun x y =>
    match x, y with
    | .error e, .error f =>
        if h : e = f then isTrue (h ▸ rfl) else isFalse fun hh => h (Except.error.inj hh)
    | .error _, .ok _ => isFalse fun hh => Except.noConfusion hh
    | .ok _, .error _ => isFalse fun hh => Except.noConfusion hh
    | .ok a, .ok b =>
        if h : a = b then isTrue (h ▸ rfl) else isFalse fun hh => h (Except.ok.inj hh)

/-- The `Interval` class: a pair of numbers.  The `start <= stop` invariant is
enforced by the constructor `mkInterval`, not by the type itself. -/
structure Interval where
  start : ℚ
  stop : ℚ
  deriving DecidableEq

/-- Validity invariant maintained by the Python constructor. -/
def Interval.valid (i : Interval) : Prop := i.start ≤ i.stop

/-- `Interval.__init__(start, stop, swap_if_inverted)`: if `stop < start`,
either swap the bounds (when requested) or raise `RuntimeError`. -/
def mkInterval (start stop : ℚ) (swap_if_inverted : Bool) : Except IntervalError Interval :=
  if stop < start then
    if swap_if_inverted then .ok ⟨stop, start⟩ else .error .invalidInterval
  else .ok ⟨start, stop⟩

/-- `Interval.overlaps_with(interval)`: the four-branch `if/elif` chain of the
source, with `a` playing `self` and `b` the argument. -/
def Interval.overlaps_with (a b : Interval) : Bool :=
  if b.start = a.start ∨ b.stop = a.stop then true
  else if b.start > a.start ∧ b.start < a.stop then true
  else if b.stop > a.start ∧ b.stop < a.stop then true
  else if b.start < a.start ∧ b.stop > a.stop then true
  else false

/-- `Interval.intersect(interval)`: raise `IntervalsDoNotOverlap` unless the
intervals overlap, otherwise construct `[max(starts), min(stops)]` through
`self.new`, i.e. through the fallible constructor. -/
def Interval.intersect (a b : Interval) : Except IntervalError Interval :=
  if a.overlaps_with b then mkInterval (max a.start b.start) (min a.stop b.stop) false
  else .error .doNotOverlap

/-- `Interval.merge(interval)`: raise `IntervalsDoNotOverlap` unless the
intervals overlap, otherwise construct `[min(starts), max(stops)]` through
the fallible constructor. -/
def Interval.merge (a b : Interval) : Except IntervalError Interval :=
  if a.overlaps_with b then mkInterval (min a.start b.start) (max a.stop b.stop) false
  else .error .doNotOverlap

/-- The merged interval value `[min(starts), max(stops)]`; equals the result
of `Interval.merge` whenever that call succeeds (see `merge_eq_ok`). -/
def mergeVal (a b : Interval) : Interval := ⟨min a.start b.start, max a.stop b.stop⟩

/-- An `IntervalSet` is its internal list `self._intervals`, in raw
(insertion) order. -/
abbrev IntervalSet := List Interval

/-- Sort key relation used by `IntervalSet.argsort`: ascending by `start`. -/
def startLE (a b : Interval) : Prop := a.start ≤ b.start

instance : DecidableRel startLE := fun a b => inferInstanceAs (Decidable (a.start ≤ b.start))

/-- `IntervalSet.sort()` / `argsort()`: a stable sort of the intervals by
their `start` (Python's `sorted` with key `start` is stable; insertion sort
on the `startLE` relation realises the same permutation). -/
def sortSet (s : IntervalSet) : IntervalSet := List.insertionSort startLE s

/-- `IntervalSet.starts`. -/
def starts (s : IntervalSet) : List ℚ := s.map Interval.start

/-- `IntervalSet.stops`. -/
def stops (s : IntervalSet) : List ℚ := s.map Interval.stop

/-- Default absolute tolerance of `np.allclose` (`atol=1e-8`). -/
def atolD : ℚ := 1 / 100000000

/-- Relative tolerance passed by `is_contiguous` (`rtol=1e-5`). -/
def rtolD : ℚ := 1 / 100000

/-- `np.allclose(a, b, rtol, atol)` on equal-length vectors:
`|a_i - b_i| <= atol + rtol * |b_i|` for every `i`. -/
def allclose (a b : List ℚ) (rtol atol : ℚ) : Bool :=
  (List.zip a b).all fun p => decide (|p.1 - p.2| ≤ atol + rtol * |p.2|)

/-- `IntervalSet.is_contiguous(relative_tolerance)`: compares
`starts[1:]` with `stops[:-1]` over the raw internal order. -/
def is_contiguous (s : IntervalSet) (rtol : ℚ) : Bool :=
  allclose (starts s).tail (stops s).dropLast rtol atolD

/-- `IntervalSet.edges`: if `is_contiguous()` (raw order, default tolerance)
holds, return the starts of the argsort-sorted intervals followed by the last
sorted stop; otherwise raise `IntervalsNotContiguous`.  On a set with fewer
than two intervals the Python body raises `TypeError` instead
(`itemgetter()` with no arguments for the empty set; iteration over a single
`Interval` object for a singleton, since `itemgetter(i)` returns the bare
element rather than a tuple). -/
def edgesSet (s : IntervalSet) : Except IntervalError (List ℚ) :=
  if is_contiguous s rtolD then
    match sortSet s with
    | [] => .error .typeError
    | [_] => .error .typeError
    | a :: b :: rest =>
        .ok (((a :: b :: rest).map Interval.start) ++
          [((a :: b :: rest).map Interval.stop).getLastD 0])
  else .error .notContiguous

/-- `np.searchsorted(a, v)` with `side='left'` on an ascending list: the
number of elements strictly below `v` (the insertion point). -/
def searchsorted (a : List ℚ) (v : ℚ) : ℕ :=
  a.countP fun x => decide (x < v)

/-- `IntervalSet.containing_bin(value)`:
`min(max(0, searchsorted(edges, value) - 1), len(self))`, propagating any
failure of the `edges` property. -/
def containing_bin (s : IntervalSet) (v : ℚ) : Except IntervalError ℤ :=
  match edgesSet s with
  | .error e => .error e
  | .ok e => .ok (min (max 0 ((searchsorted e v : ℤ) - 1)) (s.length : ℤ))

/-- The `sort()` method call itself, result and failure: `sort()` evaluates
`np.atleast_1d(itemgetter(*self.argsort())(self._intervals))`.  On an empty
set this raises `TypeError`, because `itemgetter` requires at least one
argument; otherwise it returns the stably-start-sorted sequence `sortSet s`
(as a numpy ndarray, which matters for `merge_intersecting_intervals`
below). -/
def sortMethod (s : IntervalSet) : Except IntervalError IntervalSet :=
  match s with
  | [] => .error .typeError
  | _ => .ok (sortSet s)

/-- `IntervalSet.merge_intersecting_intervals`: the method first evaluates
`sorted_intervals = self.sort()`, which raises `TypeError` on an empty set
and otherwise returns a numpy ndarray (see `sortMethod`).  With two or more
intervals the loop body immediately calls `sorted_intervals.pop(0)`, but an
ndarray has no `pop` method, so the method raises `AttributeError` before
merging anything.  With exactly one interval the `while` loop is skipped
(`len > 1` is false) and the leftover handling appends that interval to the
empty `new_intervals`, so a one-interval copy is returned.  (The `in_place`
flag only chooses whether the returned value replaces `self`.) -/
def merge_intersecting_intervals (s : IntervalSet) : Except IntervalError IntervalSet :=
  match sortMethod s with
  | .error e => .error e
  | .ok [] => .ok []
  | .ok [x] => .ok [x]
  | .ok (_ :: _ :: _) => .error .attributeError

/-- `Interval.__eq__`: structural equality of the two bounds. -/
def ivBEq (a b : Interval) : Bool :=
  decide (a.start = b.start) && decide (a.stop = b.stop)

/-- The comparison loop of `IntervalSet.__eq__` once both `sort()` calls
have returned: zip the two sorted sequences and compare elementwise; return
`False` at the first mismatch, `True` otherwise (note that `zip` truncates
to the shorter operand).  The `sort()` calls themselves fail with
`TypeError` on an empty operand; `setEqMethod` includes that path. -/
def setEq (s t : IntervalSet) : Bool :=
  (List.zip (sortSet s) (sortSet t)).all fun p => ivBEq p.1 p.2

/-- `IntervalSet.__eq__` including the two `sort()` calls: an empty operand
raises `TypeError` (see `sortMethod`); on nonempty operands the comparison
`setEq` runs. -/
def setEqMethod (s t : IntervalSet) : Except IntervalError Bool :=
  match sortMethod s with
  | .error e => .error e
  | .ok _ =>
      match sortMethod t with
      | .error e => .error e
      | .ok _ => .ok (setEq s t)

/-- The interval-construction loop shared by the `IntervalSet` factories:
one `cls.new_interval(imin, imax)` per pair of bounds, aborting at the first
constructor failure. -/
def buildIntervals : List (ℚ × ℚ) → Except IntervalError (List Interval)
  | [] => .ok []
  | p :: rest =>
      match mkInterval p.1 p.2 false with
      | .error e => .error e
      | .ok iv =>
          match buildIntervals rest with
          | .error e => .error e
          | .ok l => .ok (iv :: l)

/-- `IntervalSet.from_list_of_edges(edges)`: `edges.sort()` mutates the
caller's list in place, then adjacent pairs are fed to the interval
constructor.  The first component is the state of the caller's `edges`
argument after the call; the second is the construction outcome. -/
def from_list_of_edges (edges : List ℚ) :
    List ℚ × Except IntervalError (List Interval) :=
  let sorted := List.insertionSort (fun a b : ℚ => a ≤ b) edges
  (sorted, buildIntervals (sorted.dropLast.zip sorted.tail))

/-- One captured group of the pattern in `_parse_interval`,
`\-?\+?[0-9]+\.?[0-9]*`: an optional minus sign, an optional plus sign, a
nonempty run of digits, an optional dot, and a possibly empty run of digits.
Kept structured so that the `float()` conversion can be stated on it. -/
structure NumTok where
  neg : Bool
  plus : Bool
  intDigits : List Char
  dot : Bool
  fracDigits : List Char
  deriving DecidableEq

/-- Greedy prefix match of one number group.  Because the character classes
of consecutive pieces of the pattern are disjoint (sign, digits, dot,
whitespace, dash), the greedy deterministic match coincides with the
backtracking regex match. -/
def matchNum (cs : List Char) : Option (NumTok × List Char) :=
  let (neg, cs1) : Bool × List Char :=
    match cs with
    | '-' :: r => (true, r)
    | _ => (false, cs)
  let (plus, cs2) : Bool × List Char :=
    match cs1 with
    | '+' :: r => (true, r)
    | _ => (false, cs1)
  let ds := cs2.takeWhile Char.isDigit
  let cs3 := cs2.dropWhile Char.isDigit
  if ds.isEmpty then none
  else
    let (dt, cs4) : Bool × List Char :=
      match cs3 with
      | '.' :: r => (true, r)
      | _ => (false, cs3)
    let fs := cs4.takeWhile Char.isDigit
    let cs5 := cs4.dropWhile Char.isDigit
    some (⟨neg, plus, ds, dt, fs⟩, cs5)

/-- The separator `\s*-\s*` of the pattern. -/
def matchSep (cs : List Char) : Option (List Char) :=
  match cs.dropWhile Char.isWhitespace with
  | '-' :: r => some (r.dropWhile Char.isWhitespace)
  | _ => none

/-- `re.match` of the full pattern of `_parse_interval`: a prefix match
returning the two captured groups (trailing unmatched characters are
ignored, as `re.match` anchors only at the beginning). -/
def matchIntervalTok (cs : List Char) : Option (NumTok × NumTok) :=
  match matchNum cs with
  | none => none
  | some (g1, r1) =>
      match matchSep r1 with
      | none => none
      | some r2 =>
          match matchNum r2 with
          | none => none
          | some (g2, _) => some (g1, g2)

/-- Numeric value of a digit run. -/
def digitsVal (ds : List Char) : ℕ :=
  ds.foldl (fun acc c => 10 * acc + (c.toNat - 48)) 0

/-- Python `float()` applied to a captured group: fails with `ValueError`
when the capture carries both a minus and a plus sign (for example "-+5"),
otherwise yields the signed decimal value. -/
def NumTok.toRat (t : NumTok) : Except IntervalError ℚ :=
  if t.neg && t.plus then .error .valueError
  else
    .ok ((if t.neg then (-1 : ℚ) else 1) *
      ((digitsVal t.intDigits : ℚ) +
        (digitsVal t.fracDigits : ℚ) / 10 ^ t.fracDigits.length))

/-- `IntervalSet._parse_interval(token)`: match the pattern (raising
`AttributeError` alias `parseError` when `re.match` returns `None`), then
convert both captures with `float`. -/
def parseIntervalTok (cs : List Char) : Except IntervalError (ℚ × ℚ) :=
  match matchIntervalTok cs with
  | none => .error .parseError
  | some (g1, g2) =>
      match g1.toRat with
      | .error e => .error e
      | .ok a =>
          match g2.toRat with
          | .error e => .error e
          | .ok b => .ok (a, b)

/-- `IntervalSet.from_strings(*intervals)`: parse each token and feed the two
numbers to `cls.new_interval`, aborting at the first failure. -/
def from_strings : List (List Char) → Except IntervalError (List Interval)
  | [] => .ok []
  | tk :: rest =>
      match parseIntervalTok tk with
      | .error e => .error e
      | .ok (a, b) =>
          match mkInterval a b false with
          | .error e => .error e
          | .ok iv =>
              match from_strings rest with
              | .error e => .error e
              | .ok l => .ok (iv :: l)

/-! ## Helper lemmas -/

/-- The `if/elif` chain of `overlaps_with` as a disjunction. -/
theorem overlaps_iff (a b : Interval) :
    a.overlaps_with b = true ↔
      (b.start = a.start ∨ b.stop = a.stop) ∨
      (a.start < b.start ∧ b.start < a.stop) ∨
      (a.start < b.stop ∧ b.stop < a.stop) ∨
      (b.start < a.start ∧ a.stop < b.stop) := by
  unfold Interval.overlaps_with
  split_ifs with h1 h2 h3 h4 <;> simp [gt_iff_lt] at * <;> tauto

/-- One direction of the symmetry of `overlaps_with` on valid intervals. -/
theorem overlaps_swap_aux (a b : Interval) (ha : a.valid) (hb : b.valid)
    (h : a.overlaps_with b = true) : b.overlaps_with a = true := by
  rw [overlaps_iff] at h ⊢
  unfold Interval.valid at ha hb
  rcases h with (h | h) | ⟨h1, h2⟩ | ⟨h1, h2⟩ | ⟨h1, h2⟩
  · exact Or.inl (Or.inl h.symm)
  · exact Or.inl (Or.inr h.symm)
  · rcases lt_trichotomy a.stop b.stop with h3 | h3 | h3
    · exact Or.inr (Or.inr (Or.inl ⟨h2, h3⟩))
    · exact Or.inl (Or.inr h3)
    · exact Or.inr (Or.inr (Or.inr ⟨h1, h3⟩))
  · rcases lt_trichotomy a.start b.start with h3 | h3 | h3
    · exact Or.inr (Or.inr (Or.inr ⟨h3, h2⟩))
    · exact Or.inl (Or.inl h3)
    · exact Or.inr (Or.inl ⟨h3, h1⟩)
  · exact Or.inr (Or.inl ⟨h1, lt_of_le_of_lt ha h2⟩)

/-- On valid overlapping intervals the intersection bounds are ordered. -/
theorem overlaps_max_le_min (a b : Interval) (ha : a.valid) (hb : b.valid)
    (h : a.overlaps_with b = true) :
    max a.start b.start ≤ min a.stop b.stop := by
  rw [overlaps_iff] at h
  unfold Interval.valid at ha hb
  rw [max_le_iff]
  constructor <;> rw [le_min_iff] <;> constructor <;>
    rcases h with (h | h) | ⟨h1, h2⟩ | ⟨h1, h2⟩ | ⟨h1, h2⟩ <;> linarith

/-- The constructor succeeds on ordered bounds. -/
theorem mkInterval_ok {a b : ℚ} (h : a ≤ b) : mkInterval a b false = .ok ⟨a, b⟩ := by
  unfold mkInterval
  rw [if_neg (not_lt.mpr h)]

/-- On valid overlapping intervals, `intersect` reaches the success branch of
the constructor. -/
theorem intersect_eq_ok (a b : Interval) (ha : a.valid) (hb : b.valid)
    (h : a.overlaps_with b = true) :
    a.intersect b = .ok ⟨max a.start b.start, min a.stop b.stop⟩ := by
  unfold Interval.intersect
  rw [if_pos h, mkInterval_ok (overlaps_max_le_min a b ha hb h)]

/-- On a valid receiver, an overlapping `merge` call succeeds and returns
exactly `mergeVal`. -/
theorem merge_eq_ok (a b : Interval) (ha : a.valid)
    (h : a.overlaps_with b = true) :
    a.merge b = .ok (mergeVal a b) := by
  unfold Interval.merge mergeVal
  rw [if_pos h, mkInterval_ok (le_trans (min_le_left _ _) (le_trans ha (le_max_left _ _)))]

/-- The construction loop succeeds on ordered pairs and produces one interval
per pair. -/
theorem buildIntervals_of_forall (ps : List (ℚ × ℚ)) (h : ∀ p ∈ ps, p.1 ≤ p.2) :
    buildIntervals ps = .ok (ps.map fun p => ⟨p.1, p.2⟩) := by
  induction ps with
  | nil => rfl
  | cons p rest ih =>
      simp [buildIntervals, mkInterval_ok (h p (List.mem_cons_self _ _)),
        ih fun q hq => h q (List.mem_cons_of_mem _ hq)]

/-- Adjacent pairs of an ascending list are ordered. -/
theorem adjacent_pairs_le (l : List ℚ) (h : List.Sorted (· ≤ ·) l) :
    ∀ p ∈ l.dropLast.zip l.tail, p.1 ≤ p.2 := by
  induction l with
  | nil => simp
  | cons x t ih =>
      cases t with
      | nil => simp
      | cons y u =>
          have hxy : x ≤ y := (List.sorted_cons.mp h).1 y (List.mem_cons_self _ _)
          have h' := (List.sorted_cons.mp h).2
          intro p hp
          simp only [List.dropLast_cons₂, List.tail_cons, List.zip_cons_cons,
            List.mem_cons] at hp
          rcases hp with rfl | hp
          · exact hxy
          · exact ih h' p (by simpa using hp)

/-! ## Claims -/

/-- Claim C1 (code bug): the claim states that `merge_intersecting_intervals`
returns an ascending, pairwise non-overlapping minimal cover, and the
docstring of the method promises merged, contiguous output; but for every
set with at least two intervals the method raises `AttributeError` before
merging anything, because `sort()` returns a numpy ndarray and the loop
calls `sorted_intervals.pop(0)` on it. -/
theorem C1_merge_crashes (s : IntervalSet) (h : 2 ≤ s.length) :
    merge_intersecting_intervals s = .error .attributeError := by
  have hlen : 2 ≤ (sortSet s).length := by
    unfold sortSet
    rw [(List.perm_insertionSort startLE s).length_eq]
    exact h
  have hsm : sortMethod s = .ok (sortSet s) := by
    rcases hs : s with _ | ⟨x, t⟩
    · rw [hs] at h; simp at h
    · rfl
  rcases hsrt : sortSet s with _ | ⟨a, _ | ⟨b, rest⟩⟩
  · rw [hsrt] at hlen; simp at hlen
  · rw [hsrt] at hlen; simp at hlen
  · unfold merge_intersecting_intervals
    rw [hsm, hsrt]

/-- Claim C1, witness: the crash at the four-interval chain
`[0,2], [1,3], [2,4], [3,6]`. -/
theorem C1_witness :
    merge_intersecting_intervals [⟨0,2⟩, ⟨1,3⟩, ⟨2,4⟩, ⟨3,6⟩] = .error .attributeError :=
  C1_merge_crashes [⟨0,2⟩, ⟨1,3⟩, ⟨2,4⟩, ⟨3,6⟩] (by decide)

/-- Claim C2 (code bug): on the set with edges `[0,1,2,3]` the queries `-5`
and `1.5` return `0` and `1` as claimed, but the query `10` returns `3`,
which is `len(set)` and not the last interval index `2`: the code clamps
with `min(..., len(self))` although its docstring promises the last channel
index. -/
theorem C2_containing_bin_exceeds_last_index :
    containing_bin [⟨0,1⟩, ⟨1,2⟩, ⟨2,3⟩] (-5) = .ok 0 ∧
    containing_bin [⟨0,1⟩, ⟨1,2⟩, ⟨2,3⟩] (3/2) = .ok 1 ∧
    containing_bin [⟨0,1⟩, ⟨1,2⟩, ⟨2,3⟩] 10 = .ok 3 ∧
    (3 : ℤ) ≠ (([⟨0,1⟩, ⟨1,2⟩, ⟨2,3⟩] : IntervalSet).length : ℤ) - 1 := by
  norm_num [containing_bin, edgesSet, is_contiguous, allclose, starts, stops,
    sortSet, startLE, atolD, rtolD, searchsorted]

/-- Claim C3, counterexample: the set `[1,2], [0,1]` is contiguous in its
sort order, yet `edges` raises `IntervalsNotContiguous`, because the code
checks `is_contiguous()` over the raw insertion order before sorting. -/
theorem C3_counterexample_edges_raw_order :
    edgesSet [⟨1,2⟩, ⟨0,1⟩] = .error .notContiguous ∧
    is_contiguous (sortSet [⟨1,2⟩, ⟨0,1⟩]) rtolD = true := by
  norm_num [edgesSet, is_contiguous, allclose, starts, stops, sortSet, startLE,
    atolD, rtolD]

/-- Claim C3 as amended: `edges` raises `IntervalsNotContiguous` exactly when
the set, in its RAW internal order, fails the `is_contiguous` tolerance
check; when that check passes and the set has at least two intervals, it
returns the sorted starts followed by the final sorted stop. -/
theorem C3_edges_raw_order_contiguity (s : IntervalSet) :
    (edgesSet s = .error .notContiguous ↔ is_contiguous s rtolD = false) ∧
    (is_contiguous s rtolD = true → 2 ≤ s.length →
      edgesSet s =
        .ok ((sortSet s).map Interval.start ++
          [((sortSet s).map Interval.stop).getLastD 0])) := by
  constructor
  · cases h : is_contiguous s rtolD
    · simp [edgesSet, h]
    · simp only [edgesSet, h, if_true]
      constructor
      · intro hcontra
        revert hcontra
        split <;> simp
      · intro hcontra
        simp at hcontra
  · intro hc hlen
    have hlen2 : 2 ≤ (sortSet s).length := by
      unfold sortSet
      rw [(List.perm_insertionSort startLE s).length_eq]
      exact hlen
    rcases hs : sortSet s with _ | ⟨a, _ | ⟨b, rest⟩⟩
    · rw [hs] at hlen2; simp at hlen2
    · rw [hs] at hlen2; simp at hlen2
    · simp [edgesSet, hc, hs]

/-- Claim C3, witness: the amended theorem applied to the concrete set
`[0,1], [1,2]`. -/
theorem C3_edges_witness :
    edgesSet [⟨0,1⟩, ⟨1,2⟩] =
      .ok ((sortSet [⟨0,1⟩, ⟨1,2⟩]).map Interval.start ++
        [((sortSet [⟨0,1⟩, ⟨1,2⟩]).map Interval.stop).getLastD 0]) :=
  (C3_edges_raw_order_contiguity [⟨0,1⟩, ⟨1,2⟩]).2
    (by norm_num [is_contiguous, allclose, starts, stops, atolD, rtolD])
    (by decide)

/-- Claim C4 (code bug): `IntervalSet.__eq__` zips the two sorted sets, so
the comparison silently truncates to the shorter operand: a one-interval set
compares equal to a two-interval set sharing its first element, although the
claim (and any equality contract) requires sets of different lengths to be
unequal. -/
theorem C4_setEq_ignores_extra_elements :
    setEq [⟨0,1⟩] [⟨0,1⟩, ⟨2,3⟩] = true ∧
    ([⟨0,1⟩] : IntervalSet).length ≠ ([⟨0,1⟩, ⟨2,3⟩] : IntervalSet).length := by decide

/-- Claim C5: on valid intervals, `intersect` fails with
`IntervalsDoNotOverlap` exactly when the two intervals do not overlap and
otherwise returns `[max(starts), min(stops)]`, and `merge` fails with
`IntervalsDoNotOverlap` exactly when they do not overlap and otherwise
returns `[min(starts), max(stops)]`. -/
theorem C5_intersect_merge_contract (a b : Interval) (ha : a.valid) (hb : b.valid) :
    (a.intersect b = .error .doNotOverlap ↔ a.overlaps_with b = false) ∧
    (a.overlaps_with b = true →
      a.intersect b = .ok ⟨max a.start b.start, min a.stop b.stop⟩) ∧
    (a.merge b = .error .doNotOverlap ↔ a.overlaps_with b = false) ∧
    (a.overlaps_with b = true →
      a.merge b = .ok ⟨min a.start b.start, max a.stop b.stop⟩) := by
  cases h : a.overlaps_with b
  · refine ⟨?_, ?_, ?_, ?_⟩ <;> simp [Interval.intersect, Interval.merge, h]
  · have hi := intersect_eq_ok a b ha hb h
    have hm := merge_eq_ok a b ha h
    refine ⟨by simp [hi], fun _ => hi, by simp [hm], fun _ => by simpa [mergeVal] using hm⟩

/-- Claim C5, witness: the contract applied to the overlapping valid pair
`[0,2]`, `[1,3]`. -/
theorem C5_witness :
    (Interval.intersect ⟨0,2⟩ ⟨1,3⟩ = .error .doNotOverlap ↔
      Interval.overlaps_with ⟨0,2⟩ ⟨1,3⟩ = false) ∧
    (Interval.overlaps_with ⟨0,2⟩ ⟨1,3⟩ = true →
      Interval.intersect ⟨0,2⟩ ⟨1,3⟩ = .ok ⟨max 0 1, min 2 3⟩) ∧
    (Interval.merge ⟨0,2⟩ ⟨1,3⟩ = .error .doNotOverlap ↔
      Interval.overlaps_with ⟨0,2⟩ ⟨1,3⟩ = false) ∧
    (Interval.overlaps_with ⟨0,2⟩ ⟨1,3⟩ = true →
      Interval.merge ⟨0,2⟩ ⟨1,3⟩ = .ok ⟨min 0 1, max 2 3⟩) :=
  C5_intersect_merge_contract ⟨0,2⟩ ⟨1,3⟩ (by norm_num [Interval.valid])
    (by norm_num [Interval.valid])

/-- Claim C6: two intervals that merely touch at a boundary without sharing
the exact same start or the exact same stop do not overlap
(`[0,1]` vs `[1,2]`), two intervals sharing an exact start or stop value do
(`[0,1]` vs `[1,1]`), and in general overlap holds exactly for shared
endpoints (start-to-start or stop-to-stop), strict interior penetration, or
strict enclosure. -/
theorem C6_overlap_boundary_policy :
    Interval.overlaps_with ⟨0,1⟩ ⟨1,2⟩ = false ∧
    Interval.overlaps_with ⟨0,1⟩ ⟨1,1⟩ = true ∧
    ∀ a b : Interval, a.overlaps_with b = true ↔
      (b.start = a.start ∨ b.stop = a.stop) ∨
      (a.start < b.start ∧ b.start < a.stop) ∨
      (a.start < b.stop ∧ b.stop < a.stop) ∨
      (b.start < a.start ∧ a.stop < b.stop) :=
  ⟨by decide, by decide, overlaps_iff⟩

/-- Claim C7: `overlaps_with` is symmetric on valid intervals. -/
theorem C7_overlaps_with_symm (a b : Interval) (ha : a.valid) (hb : b.valid) :
    a.overlaps_with b = b.overlaps_with a := by
  cases hab : a.overlaps_with b with
  | true => exact (overlaps_swap_aux a b ha hb hab).symm
  | false =>
      cases hba : b.overlaps_with a with
      | false => rfl
      | true =>
          have hcontra := overlaps_swap_aux b a hb ha hba
          rw [hcontra] at hab
          simp at hab

/-- Claim C7, witness: symmetry at the shared-stop pair `[0,1]`, `[1,1]`. -/
theorem C7_witness :
    Interval.overlaps_with ⟨0,1⟩ ⟨1,1⟩ = Interval.overlaps_with ⟨1,1⟩ ⟨0,1⟩ :=
  C7_overlaps_with_symm ⟨0,1⟩ ⟨1,1⟩ (by norm_num [Interval.valid])
    (by norm_num [Interval.valid])

/-- Claim C8, counterexample: the token "10-5" matches the pattern with the
two parsed numbers `10` and `5`, yet `from_strings` produces no interval for
it — the interval constructor rejects the inverted bounds with
`RuntimeError` — refuting the claim that every matching token yields one
interval with the parsed numbers as bounds. -/
theorem C8_counterexample_matching_token_fails :
    parseIntervalTok ['1','0','-','5'] = .ok (10, 5) ∧
    from_strings [['1','0','-','5']] = .error .invalidInterval := by
  have hm : matchIntervalTok ['1','0','-','5'] =
      some (⟨false, false, ['1','0'], false, []⟩, ⟨false, false, ['5'], false, []⟩) := by
    decide
  have d1 : digitsVal ['1','0'] = 10 := by decide
  have d2 : digitsVal ['5'] = 5 := by decide
  have d0 : digitsVal [] = 0 := by decide
  have hp : parseIntervalTok ['1','0','-','5'] = .ok (10, 5) := by
    norm_num [parseIntervalTok, hm, NumTok.toRat, d1, d2, d0]
  refine ⟨hp, ?_⟩
  norm_num [from_strings, hp, mkInterval]

/-- Claim C8 as amended: a token with no (prefix) match of the pattern fails
with `ParseError`; a list of tokens that all match, with captures that
convert to numbers in ascending order, yields one interval per token with
the two parsed numbers as bounds.  (A matching token with inverted bounds
instead fails with the constructor's `RuntimeError`, see the
counterexample.) -/
theorem C8_from_strings_amended :
    (∀ tk : List Char, matchIntervalTok tk = none →
      from_strings [tk] = .error .parseError) ∧
    (∀ toks : List (List Char),
      (∀ tk ∈ toks, ∃ a b : ℚ, parseIntervalTok tk = .ok (a, b) ∧ a ≤ b) →
      ∃ l, from_strings toks = .ok l ∧
        List.Forall₂ (fun tk iv => parseIntervalTok tk = .ok (iv.start, iv.stop)) toks l) := by
  constructor
  · intro tk h
    simp [from_strings, parseIntervalTok, h]
  · intro toks
    induction toks with
    | nil => exact fun _ => ⟨[], rfl, List.Forall₂.nil⟩
    | cons tk rest ih =>
        intro h
        obtain ⟨a, b, hparse, hab⟩ := h tk (List.mem_cons_self _ _)
        obtain ⟨l, hl, hfa⟩ := ih fun t ht => h t (List.mem_cons_of_mem _ ht)
        refine ⟨⟨a, b⟩ :: l, ?_, List.Forall₂.cons hparse hfa⟩
        simp [from_strings, hparse, mkInterval_ok hab, hl]

/-- Claim C8, witness: the amended theorem at the unmatched token "x" and at
the single matching token "1-2". -/
theorem C8_witness :
    from_strings [['x']] = .error .parseError ∧
    ∃ l, from_strings [['1','-','2']] = .ok l ∧
      List.Forall₂ (fun tk iv => parseIntervalTok tk = .ok (iv.start, iv.stop))
        [['1','-','2']] l := by
  have hm : matchIntervalTok ['1','-','2'] =
      some (⟨false, false, ['1'], false, []⟩, ⟨false, false, ['2'], false, []⟩) := by
    decide
  have d1 : digitsVal ['1'] = 1 := by decide
  have d2 : digitsVal ['2'] = 2 := by decide
  have d0 : digitsVal [] = 0 := by decide
  have hp : parseIntervalTok ['1','-','2'] = .ok (1, 2) := by
    norm_num [parseIntervalTok, hm, NumTok.toRat, d1, d2, d0]
  refine ⟨C8_from_strings_amended.1 ['x'] (by decide),
    C8_from_strings_amended.2 [['1','-','2']] ?_⟩
  intro tk htk
  rw [List.mem_singleton] at htk
  subst htk
  exact ⟨1, 2, hp, by norm_num⟩

/-- Claim C9: for valid overlapping intervals the intersection bounds satisfy
`max(starts) <= min(stops)`, hence the constructor call inside `intersect`
always takes its success branch and the inverted-bounds failure is
unreachable from `intersect`. -/
theorem C9_intersect_invariant_safe (a b : Interval) (ha : a.valid) (hb : b.valid)
    (h : a.overlaps_with b = true) :
    max a.start b.start ≤ min a.stop b.stop ∧
    a.intersect b = .ok ⟨max a.start b.start, min a.stop b.stop⟩ :=
  ⟨overlaps_max_le_min a b ha hb h, intersect_eq_ok a b ha hb h⟩

/-- Claim C9, witness: the safety fact at the overlapping valid pair
`[0,5]`, `[2,3]`. -/
theorem C9_witness :
    max (0:ℚ) 2 ≤ min (5:ℚ) 3 ∧
    Interval.intersect ⟨0,5⟩ ⟨2,3⟩ = .ok ⟨max 0 2, min 5 3⟩ :=
  C9_intersect_invariant_safe ⟨0,5⟩ ⟨2,3⟩ (by norm_num [Interval.valid])
    (by norm_num [Interval.valid]) (by decide)

/-- Claim C10: `from_list_of_edges` sorts the caller-supplied edge list in
place — after the call the argument is an ascending permutation of its old
value — and the returned set is built from adjacent pairs of that sorted
list. -/
theorem C10_from_list_of_edges_sorts_argument (edges : List ℚ) :
    (from_list_of_edges edges).1.Perm edges ∧
    List.Sorted (· ≤ ·) (from_list_of_edges edges).1 ∧
    (from_list_of_edges edges).2 =
      .ok ((((from_list_of_edges edges).1.dropLast).zip (from_list_of_edges edges).1.tail).map
        fun p => ⟨p.1, p.2⟩) := by
  refine ⟨?_, ?_, ?_⟩
  · simpa [from_list_of_edges] using
      List.perm_insertionSort (fun a b : ℚ => a ≤ b) edges
  · simpa [from_list_of_edges] using
      List.sorted_insertionSort (fun a b : ℚ => a ≤ b) edges
  · simp only [from_list_of_edges]
    exact buildIntervals_of_forall _
      (adjacent_pairs_le _ (List.sorted_insertionSort (fun a b : ℚ => a ≤ b) edges))

end ThreeML
